import Mathlib

/-!
Verification of the LC-3 virtual machine (src/lc3.c) against its
natural-language specification.

The C source provides the machine's data model (register file, 65,536-cell
memory, opcode numbering), the fetch/increment step, the switch dispatch
structure, and the command-line handling.  The opcode bodies, the trap
routines, `sign_extend`, `update_flags`, `mem_read` and `read_image` are
left as placeholders in the source; those are modelled here from the spec
(each such definition's doc comment starts with "Modelled from the spec").
Machine words are 16-bit unsigned values, embedded as `Nat` kept below
2^16 at every write.
-/

namespace LC3

/-- Execution-loop status (spec section 4.6): `Running`, or `Halted`.
A fatal decode condition also reaches `Halted` but is distinguished by the
`fatal` flag (it exits with a non-zero status, a normal HALT with zero). -/
inductive Status where
  | running : Status
  | halted : Bool → Status
deriving DecidableEq

/-- Index of the program counter in the register array (src/lc3.c `R_PC`). -/
def R_PC : Nat := 8

/-- Index of the condition-flags register (src/lc3.c `R_COND`). -/
def R_COND : Nat := 9

/-- Positive condition flag, bit 0 (src/lc3.c `FL_POS = 1 << 0`). -/
def FL_POS : Nat := 1

/-- Zero condition flag, bit 1 (src/lc3.c `FL_ZRO = 1 << 1`). -/
def FL_ZRO : Nat := 2

/-- Negative condition flag, bit 2 (src/lc3.c `FL_NEG = 1 << 2`). -/
def FL_NEG : Nat := 4

/-- Memory addresses are exactly 16 bits wide: the address space is
`Fin 65536`, matching `uint16_t memory[1 << 16]` in src/lc3.c. -/
abbrev Address := Fin 65536

/-- Reduce a computed `Nat` to a 16-bit address (the implicit `% 2^16` of
C `uint16_t` address arithmetic). -/
def toAddr (n : Nat) : Address := ⟨n % 65536, Nat.mod_lt n (by norm_num)⟩

/-- Modelled from the spec: keyboard status register address (memory-mapped
device register; the spec reserves two addresses, the conventional LC-3
locations are used here since the source leaves `mem_read` unimplemented). -/
def MR_KBSR : Nat := 0xFE00

/-- Modelled from the spec: keyboard data register address. -/
def MR_KBDR : Nat := 0xFE02

/-- The whole machine state: the ten-slot register file and the memory of
src/lc3.c, plus the terminal collaborator of spec section 6, modelled as a
stream of key codes for the blocking `read_char`, a stream of poll answers
for the non-blocking `key_available`, and the list of characters written so
far.  `errMsg` records a surfaced fatal-decode error. -/
structure Machine where
  reg : Nat → Nat
  memory : Address → Nat
  keys : Nat → Nat
  keyCursor : Nat
  polls : Nat → Bool
  pollCursor : Nat
  output : List Nat
  status : Status
  errMsg : Option String

/-- Write one slot of the register file (`reg[i] = v` on the C array). -/
def regWrite (regs : Nat → Nat) (i : Nat) (v : Nat) : Nat → Nat :=
  fun j => if j = i then v else regs j

/-- Store a value into one memory cell verbatim (`memory[a] = v`); no
validation is possible or needed since `Address` is exactly 16 bits. -/
def memWrite (mem : Address → Nat) (a : Address) (v : Nat) : Address → Nat :=
  fun b => if b = a then v else mem b

/-- Modelled from the spec: `mem_read`.  A read of the keyboard status
address polls the terminal; if a key is available its code is latched into
the data register and the status bit is set, and the (possibly updated)
status cell is returned.  Every other address returns the stored cell. -/
def memRead (m : Machine) (a : Address) : Nat × Machine :=
  if a = toAddr MR_KBSR then
    if m.polls m.pollCursor then
      (32768,
       { m with
         memory := memWrite (memWrite m.memory (toAddr MR_KBDR)
                     (m.keys m.keyCursor % 256)) (toAddr MR_KBSR) 32768,
         keyCursor := m.keyCursor + 1,
         pollCursor := m.pollCursor + 1 })
    else
      (m.memory a, { m with pollCursor := m.pollCursor + 1 })
  else
    (m.memory a, m)

/-- Modelled from the spec: `sign_extend` treats `x` as a `bitCount`-wide
two's-complement integer and widens it to 16 bits by replicating the sign
bit into the higher positions (`65536 - 2 ^ bitCount` is the mask of bits
`bitCount` through 15). -/
def sign_extend (x : Nat) (bitCount : Nat) : Nat :=
  if x.testBit (bitCount - 1) then x ||| (65536 - 2 ^ bitCount) else x

/-- Modelled from the spec: `update_flags` sets COND to exactly one of
negative, zero, positive according to the value just written to slot `r`
(negative if the sign bit is set, zero if the value is zero, positive
otherwise). -/
def update_flags (r : Nat) (regs : Nat → Nat) : Nat → Nat :=
  regWrite regs R_COND
    (if regs r = 0 then FL_ZRO
     else if (regs r).testBit 15 then FL_NEG else FL_POS)

/-- Modelled from the spec: a fatal decode condition surfaces an error and
forces the loop to `Halted` (with the fatal flag, so the process exit
status is the distinguished non-zero one). -/
def fatalDecode (msg : String) (m : Machine) : Machine :=
  { m with status := Status.halted true, errMsg := some msg }

/-- Modelled from the spec: the characters PUTS emits - one character per
16-bit cell (low byte), stopping at the first zero cell.  The fuel bounds
the walk by the memory size. -/
def putsChars (mem : Address → Nat) (a : Nat) : Nat → List Nat
  | 0 => []
  | n + 1 =>
    if mem (toAddr a) = 0 then []
    else mem (toAddr a) % 256 :: putsChars mem (a + 1) n

/-- Modelled from the spec: the characters PUTSP emits - two packed 8-bit
characters per cell, low byte first, stopping at the first zero byte
encountered in either half. -/
def putspChars (mem : Address → Nat) (a : Nat) : Nat → List Nat
  | 0 => []
  | n + 1 =>
    if mem (toAddr a) % 256 = 0 then []
    else if (mem (toAddr a) >>> 8) % 256 = 0 then [mem (toAddr a) % 256]
    else mem (toAddr a) % 256 :: (mem (toAddr a) >>> 8) % 256 ::
           putspChars mem (a + 1) n

/-- The halt notice printed by the HALT trap ("HALT" and a newline). -/
def haltNotice : List Nat := [72, 65, 76, 84, 10]

/-- The prompt printed by the IN trap before reading a character. -/
def promptChars : List Nat :=
  (String.toList "Enter a character: ").map (fun c => c.toNat)

/-- Modelled from the spec: the trap dispatcher.  TRAP first saves the
(already incremented) PC into R7, then dispatches on the 8-bit vector:
GETC 0x20, OUT 0x21, PUTS 0x22, IN 0x23, PUTSP 0x24, HALT 0x25; any other
vector is a fatal decode condition. -/
def execTrap (instr : Nat) (m0 : Machine) : Machine :=
  let m := { m0 with reg := regWrite m0.reg 7 (m0.reg R_PC) }
  if instr &&& 255 = 0x20 then
    { m with reg := regWrite m.reg 0 (m.keys m.keyCursor % 256),
             keyCursor := m.keyCursor + 1 }
  else if instr &&& 255 = 0x21 then
    { m with output := m.output ++ [m.reg 0 % 256] }
  else if instr &&& 255 = 0x22 then
    { m with output := m.output ++ putsChars m.memory (m.reg 0) 65536 }
  else if instr &&& 255 = 0x23 then
    { m with reg := regWrite m.reg 0 (m.keys m.keyCursor % 256),
             keyCursor := m.keyCursor + 1,
             output := m.output ++ promptChars ++ [m.keys m.keyCursor % 256] }
  else if instr &&& 255 = 0x24 then
    { m with output := m.output ++ putspChars m.memory (m.reg 0) 65536 }
  else if instr &&& 255 = 0x25 then
    { m with output := m.output ++ haltNotice, status := Status.halted false }
  else
    fatalDecode "unknown trap vector" m

/-- Modelled from the spec: the instruction executor.  The dispatch
structure (one branch per opcode, with OP_RES = 13, OP_RTI = 8 and every
other value sharing the default fatal branch) is the switch of src/lc3.c
lines 132-181; each branch's effect follows the spec's opcode table. -/
def exec (op : Nat) (instr : Nat) (m : Machine) : Machine :=
  if op = 1 then
    let dr := (instr >>> 9) &&& 7
    let a := m.reg ((instr >>> 6) &&& 7)
    let b := if (instr >>> 5) &&& 1 = 1 then sign_extend (instr &&& 31) 5
             else m.reg (instr &&& 7)
    { m with reg := update_flags dr (regWrite m.reg dr ((a + b) % 65536)) }
  else if op = 5 then
    let dr := (instr >>> 9) &&& 7
    let a := m.reg ((instr >>> 6) &&& 7)
    let b := if (instr >>> 5) &&& 1 = 1 then sign_extend (instr &&& 31) 5
             else m.reg (instr &&& 7)
    { m with reg := update_flags dr (regWrite m.reg dr (a &&& b)) }
  else if op = 9 then
    let dr := (instr >>> 9) &&& 7
    let regs := regWrite m.reg dr (m.reg ((instr >>> 6) &&& 7) ^^^ 65535)
    { m with reg := update_flags dr regs }
  else if op = 0 then
    if ((instr >>> 9) &&& 7) &&& m.reg R_COND ≠ 0 then
      let pc := (m.reg R_PC + sign_extend (instr &&& 511) 9) % 65536
      { m with reg := regWrite m.reg R_PC pc }
    else m
  else if op = 12 then
    { m with reg := regWrite m.reg R_PC (m.reg ((instr >>> 6) &&& 7)) }
  else if op = 4 then
    let m1 := { m with reg := regWrite m.reg 7 (m.reg R_PC) }
    if (instr >>> 11) &&& 1 = 1 then
      let pc := (m1.reg R_PC + sign_extend (instr &&& 2047) 11) % 65536
      { m1 with reg := regWrite m1.reg R_PC pc }
    else
      { m1 with reg := regWrite m1.reg R_PC (m1.reg ((instr >>> 6) &&& 7)) }
  else if op = 2 then
    let dr := (instr >>> 9) &&& 7
    let p := memRead m (toAddr (m.reg R_PC + sign_extend (instr &&& 511) 9))
    { p.2 with reg := update_flags dr (regWrite (p.2).reg dr p.1) }
  else if op = 10 then
    let dr := (instr >>> 9) &&& 7
    let p := memRead m (toAddr (m.reg R_PC + sign_extend (instr &&& 511) 9))
    let q := memRead p.2 (toAddr p.1)
    { q.2 with reg := update_flags dr (regWrite (q.2).reg dr q.1) }
  else if op = 6 then
    let dr := (instr >>> 9) &&& 7
    let p := memRead m
      (toAddr (m.reg ((instr >>> 6) &&& 7) + sign_extend (instr &&& 63) 6))
    { p.2 with reg := update_flags dr (regWrite (p.2).reg dr p.1) }
  else if op = 14 then
    let dr := (instr >>> 9) &&& 7
    let v := (m.reg R_PC + sign_extend (instr &&& 511) 9) % 65536
    { m with reg := update_flags dr (regWrite m.reg dr v) }
  else if op = 3 then
    let a := toAddr (m.reg R_PC + sign_extend (instr &&& 511) 9)
    { m with memory := memWrite m.memory a (m.reg ((instr >>> 9) &&& 7)) }
  else if op = 11 then
    let p := memRead m (toAddr (m.reg R_PC + sign_extend (instr &&& 511) 9))
    let mem := memWrite (p.2).memory (toAddr p.1) ((p.2).reg ((instr >>> 9) &&& 7))
    { p.2 with memory := mem }
  else if op = 7 then
    let a := toAddr (m.reg ((instr >>> 6) &&& 7) + sign_extend (instr &&& 63) 6)
    { m with memory := memWrite m.memory a (m.reg ((instr >>> 9) &&& 7)) }
  else if op = 15 then
    execTrap instr m
  else
    fatalDecode "bad opcode" m

/-- The opcode is the upper 4 bits of the instruction word
(src/lc3.c line 130: `uint16_t op = instr >> 12`). -/
def opcode_of (w : Nat) : Nat := w >>> 12

/-- The fetch phase (src/lc3.c line 129: `instr = mem_read(reg[R_PC]++)`):
read the instruction word at the PC address, then increment PC (with the
16-bit wrap of `uint16_t`). -/
def fetch (m : Machine) : Nat × Machine :=
  let p := memRead m (toAddr (m.reg R_PC))
  (p.1, { p.2 with
          reg := regWrite (p.2).reg R_PC (((p.2).reg R_PC + 1) % 65536) })

/-- One iteration of the execution loop (src/lc3.c lines 126-182): if the
machine is running, fetch, decode the opcode and execute; a halted machine
does not change. -/
def step (m : Machine) : Machine :=
  if m.status = Status.running then
    exec (opcode_of (fetch m).1) (fetch m).1 (fetch m).2
  else m

/-- Run the execution loop for `n` steps. -/
def run (n : Nat) (m : Machine) : Machine := step^[n] m

/-- The register file before any initialization: the C global array
`uint16_t reg[R_COUNT]` is zero-initialized. -/
def initialReg : Nat → Nat := fun _ => 0

/-- Zero-initialized memory, as the C global array `memory`. -/
def memZero : Address → Nat := fun _ => 0

/-- The machine state at the start of execution (src/lc3.c lines 117-126):
from zeroed registers, COND is set to the zero flag and PC to 0x3000, and
the loop enters with `running` true. -/
def startMachine (mem : Address → Nat) (keys : Nat → Nat)
    (polls : Nat → Bool) : Machine :=
  { reg := regWrite (regWrite initialReg R_COND FL_ZRO) R_PC 0x3000,
    memory := mem, keys := keys, keyCursor := 0,
    polls := polls, pollCursor := 0,
    output := [], status := Status.running, errMsg := none }

/-- An image: the list of (address, word) cells the loader writes.  The
byte-order-aware file parsing is the external collaborator. -/
abbrev Image := List (Address × Nat)

/-- Apply one loaded image to memory, cell by cell. -/
def applyImage (mem : Address → Nat) (cells : Image) : Address → Nat :=
  cells.foldl (fun mm p => memWrite mm p.1 p.2) mem

/-- Modelled from the spec: load each image path in order through the
loader collaborator; the first path the loader rejects aborts the whole
load with that path. -/
def loadImages (loader : String → Option Image) (mem : Address → Nat) :
    List String → Except String (Address → Nat)
  | [] => Except.ok mem
  | p :: rest =>
    match loader p with
    | none => Except.error p
    | some cells => loadImages loader (applyImage mem cells) rest

/-- Outcome of the process: usage error (no image path), load failure, or
a run of the execution loop. -/
inductive MainResult where
  | usageExit : String → MainResult
  | loadExit : String → MainResult
  | ran : Machine → MainResult

/-- The usage message printed when no image path is given
(src/lc3.c line 101). -/
def usageMessage : String := "lc3 [image-file1] ...\n"

/-- The message printed when an image fails to load (src/lc3.c line 108),
naming the failing path. -/
def loadFailMessage (p : String) : String := "failed to load image: " ++ p

/-- The process entry point (src/lc3.c main, lines 96-184): with no image
path arguments print usage and exit; if any image fails to load, report it
and exit before the loop; otherwise initialize the machine and run the
loop.  `args` is argv without the program name; `fuel` bounds the loop. -/
def lc3Main (loader : String → Option Image) (keys : Nat → Nat)
    (polls : Nat → Bool) (fuel : Nat) (args : List String) : MainResult :=
  if args.isEmpty then MainResult.usageExit usageMessage
  else
    match loadImages loader memZero args with
    | Except.error p => MainResult.loadExit (loadFailMessage p)
    | Except.ok mem => MainResult.ran (run fuel (startMachine mem keys polls))

/-- The process exit status: 2 for the usage error (src/lc3.c line 102),
1 for a load failure (line 109), 0 when the loop ends in a normal HALT
(main returns 0), and a distinguished non-zero status for a fatal decode
condition. -/
def exitCode : MainResult → Nat
  | MainResult.usageExit _ => 2
  | MainResult.loadExit _ => 1
  | MainResult.ran m => if m.status = Status.halted false then 0 else 134

/-- Whether the process result came from entering the execution loop. -/
def enteredLoop : MainResult → Bool
  | MainResult.ran _ => true
  | _ => false

/-- Well-formedness: every register and memory cell holds a 16-bit value
(automatic in C from the `uint16_t` array types). -/
def wf (m : Machine) : Prop :=
  (∀ i, m.reg i < 65536) ∧ (∀ a, m.memory a < 65536)

/-- A started machine whose memory holds one fixed instruction word in
every cell, with no pending terminal input; used to evaluate the
executor on concrete instructions. -/
def constMachine (w : Nat) : Machine :=
  startMachine (fun _ => w) (fun _ => 0) (fun _ => false)

/-! ## Basic lemmas about the state operations -/

@[simp]
lemma regWrite_same (regs : Nat → Nat) (i v : Nat) : regWrite regs i v i = v := by
  simp [regWrite]

lemma regWrite_ne (regs : Nat → Nat) (i v j : Nat) (h : j ≠ i) :
    regWrite regs i v j = regs j := by
  simp [regWrite, h]

@[simp]
lemma memWrite_same (mem : Address → Nat) (a : Address) (v : Nat) :
    memWrite mem a v a = v := by
  simp [memWrite]

lemma memWrite_ne (mem : Address → Nat) (a : Address) (v : Nat) (b : Address)
    (h : b ≠ a) : memWrite mem a v b = mem b := by
  simp [memWrite, h]

lemma memRead_reg (m : Machine) (a : Address) : ((memRead m a).2).reg = m.reg := by
  simp only [memRead]
  split
  · split <;> rfl
  · rfl

lemma memRead_status (m : Machine) (a : Address) :
    ((memRead m a).2).status = m.status := by
  simp only [memRead]
  split
  · split <;> rfl
  · rfl

lemma memRead_errMsg (m : Machine) (a : Address) :
    ((memRead m a).2).errMsg = m.errMsg := by
  simp only [memRead]
  split
  · split <;> rfl
  · rfl

lemma memRead_fst_lt (m : Machine) (a : Address) (h : ∀ c, m.memory c < 65536) :
    (memRead m a).1 < 65536 := by
  simp only [memRead]
  split
  · split
    · norm_num
    · exact h a
  · exact h a

lemma memRead_mem_lt (m : Machine) (a : Address) (h : ∀ c, m.memory c < 65536) :
    ∀ c, ((memRead m a).2).memory c < 65536 := by
  intro c
  simp only [memRead]
  split
  · split
    · simp only [memWrite]
      split
      · norm_num
      · split
        · exact Nat.lt_of_lt_of_le (Nat.mod_lt _ (by norm_num)) (by norm_num)
        · exact h c
    · exact h c
  · exact h c

lemma fetch_fst (m : Machine) :
    (fetch m).1 = (memRead m (toAddr (m.reg R_PC))).1 := rfl

lemma fetch_snd_reg (m : Machine) :
    ((fetch m).2).reg = regWrite m.reg R_PC ((m.reg R_PC + 1) % 65536) := by
  simp only [fetch, memRead_reg]

lemma fetch_snd_status (m : Machine) : ((fetch m).2).status = m.status := by
  simp only [fetch]
  exact memRead_status m _

lemma fetch_snd_memory (m : Machine) :
    ((fetch m).2).memory = ((memRead m (toAddr (m.reg R_PC))).2).memory := rfl

lemma fetch_pc (m : Machine) :
    ((fetch m).2).reg R_PC = (m.reg R_PC + 1) % 65536 := by
  rw [fetch_snd_reg]
  simp

/-! ## C5: the initial machine state -/

/-- C5: at the start of execution the machine is `Running`, PC = 0x3000,
COND holds exactly the zero flag, and all eight general-purpose registers
R0..R7 equal 0. -/
theorem C5_initial_state (mem : Address → Nat) (keys : Nat → Nat)
    (polls : Nat → Bool) :
    (startMachine mem keys polls).status = Status.running ∧
    (startMachine mem keys polls).reg R_PC = 0x3000 ∧
    (startMachine mem keys polls).reg R_COND = FL_ZRO ∧
    ∀ i, i < 8 → (startMachine mem keys polls).reg i = 0 := by
  refine ⟨rfl, rfl, rfl, ?_⟩
  intro i hi
  simp only [startMachine, regWrite, initialReg, R_PC, R_COND]
  rw [if_neg (by omega), if_neg (by omega)]

/-- Witness for C5 at a concrete register index. -/
theorem C5_initial_state_witness :
    (3 : Nat) < 8 ∧
    (startMachine memZero (fun _ => 0) (fun _ => false)).reg 3 = 0 :=
  ⟨by norm_num,
   (C5_initial_state memZero (fun _ => 0) (fun _ => false)).2.2.2 3 (by norm_num)⟩

/-! ## C8: memory writes are total and verbatim -/

/-- C8: the address space has exactly 65,536 cells and addresses are
exactly 16 bits wide (`Address = Fin 65536`), so out-of-range access is
structurally impossible; `memWrite` stores the value verbatim at the
addressed cell and leaves every other cell unchanged, with no validation
and no failure path. -/
theorem C8_memory_write_total :
    Fintype.card Address = 65536 ∧
    ∀ (mem : Address → Nat) (a : Address) (v : Nat),
      memWrite mem a v a = v ∧
      ∀ b : Address, b ≠ a → memWrite mem a v b = mem b := by
  refine ⟨Fintype.card_fin 65536, fun mem a v => ⟨memWrite_same mem a v, fun b hb => ?_⟩⟩
  exact memWrite_ne mem a v b hb

/-- Witness for C8 at a concrete address pair. -/
theorem C8_memory_write_total_witness :
    toAddr 4 ≠ toAddr 3 ∧
    memWrite memZero (toAddr 3) 7 (toAddr 4) = memZero (toAddr 4) :=
  ⟨by decide,
   ((C8_memory_write_total.2 memZero (toAddr 3) 7).2 (toAddr 4)) (by decide)⟩

/-! ## C6: sign extension -/

/-- The mask `65536 - 2 ^ b` has exactly bits `b` through 15 set, for the
widths the instruction set uses. -/
lemma mask_testBit (b i : Nat) (hb : b = 5 ∨ b = 6 ∨ b = 9 ∨ b = 11) :
    (65536 - 2 ^ b).testBit i = decide (b ≤ i ∧ i < 16) := by
  have h16 : (65536 - 2 ^ b) < 2 ^ 16 := by
    rcases hb with h | h | h | h <;> subst h <;> norm_num
  by_cases hi : i < 16
  · rcases hb with h | h | h | h <;> subst h <;> interval_cases i <;> decide
  · have h1 : (65536 - 2 ^ b).testBit i = false :=
      Nat.testBit_eq_false_of_lt
        (lt_of_lt_of_le h16 (Nat.pow_le_pow_right (by norm_num) (by omega)))
    have h2 : ¬(b ≤ i ∧ i < 16) := by omega
    rw [h1]
    simp [h2]

/-- C6: for every 16-bit value `v` and width `b` in {5, 6, 9, 11},
`sign_extend` returns `v` unchanged when bit `b-1` is clear, returns `v`
with exactly the bits above `b-1` additionally set when bit `b-1` is set,
and is idempotent at the same width. -/
theorem C6_sign_extend_props (v : Nat) (_hv : v < 65536) (b : Nat)
    (hb : b = 5 ∨ b = 6 ∨ b = 9 ∨ b = 11) :
    (v.testBit (b - 1) = false → sign_extend v b = v) ∧
    (v.testBit (b - 1) = true →
      ∀ i : Nat, (sign_extend v b).testBit i
        = (v.testBit i || decide (b ≤ i ∧ i < 16))) ∧
    sign_extend (sign_extend v b) b = sign_extend v b := by
  refine ⟨fun h => by simp [sign_extend, h], fun h i => ?_, ?_⟩
  · simp only [sign_extend]
    rw [if_pos h, Nat.testBit_lor, mask_testBit b i hb]
  · by_cases h : v.testBit (b - 1) = true
    · have h1 : sign_extend v b = v ||| (65536 - 2 ^ b) := by
        simp only [sign_extend]
        rw [if_pos h]
      have h2 : (v ||| (65536 - 2 ^ b)).testBit (b - 1) = true := by
        rw [Nat.testBit_lor, h]
        rfl
      rw [h1]
      simp only [sign_extend]
      rw [if_pos h2, Nat.lor_assoc, Nat.or_self]
    · have hf : v.testBit (b - 1) = false := by simpa using h
      simp [sign_extend, hf]

/-! ## Condition-flag lemmas -/

lemma update_flags_at (regs : Nat → Nat) (r : Nat) (hr : r ≠ R_COND) :
    update_flags r regs r = regs r := by
  simp only [update_flags]
  exact regWrite_ne _ _ _ _ hr

lemma update_flags_cond (regs : Nat → Nat) (r : Nat) :
    update_flags r regs R_COND =
      (if regs r = 0 then FL_ZRO
       else if (regs r).testBit 15 then FL_NEG else FL_POS) := by
  simp only [update_flags]
  exact regWrite_same _ _ _

/-- After `update_flags`, COND holds exactly one of the three flags and it
matches the value in the updated slot. -/
lemma update_flags_spec (regs : Nat → Nat) (r : Nat) (hr : r ≠ R_COND) :
    ((update_flags r regs R_COND = FL_NEG ∨ update_flags r regs R_COND = FL_ZRO ∨
      update_flags r regs R_COND = FL_POS) ∧
     (update_flags r regs R_COND = FL_NEG ↔ (update_flags r regs r).testBit 15 = true) ∧
     (update_flags r regs R_COND = FL_ZRO ↔ update_flags r regs r = 0) ∧
     (update_flags r regs R_COND = FL_POS ↔
       ((update_flags r regs r).testBit 15 = false ∧ update_flags r regs r ≠ 0))) := by
  rw [update_flags_at regs r hr, update_flags_cond]
  by_cases h0 : regs r = 0
  · have hb : (regs r).testBit 15 = false := by rw [h0]; rfl
    simp [h0, FL_ZRO, FL_NEG, FL_POS]
  · by_cases hb : (regs r).testBit 15 = true
    · simp [h0, hb, FL_ZRO, FL_NEG, FL_POS]
    · have hb2 : (regs r).testBit 15 = false := by simpa using hb
      simp [h0, hb2, FL_ZRO, FL_NEG, FL_POS]

/-- A destination-register field (bits 11..9) never indexes COND. -/
lemma dr_ne_cond (w : Nat) : (w >>> 9) &&& 7 ≠ R_COND := by
  have h : (w >>> 9) &&& 7 ≤ 7 := Nat.and_le_right
  simp only [R_COND]
  omega

/-! ## Unfolding lemmas for the executor, one per opcode -/

lemma step_run_eq (m : Machine) (h0 : m.status = Status.running) :
    step m = exec (opcode_of (fetch m).1) (fetch m).1 (fetch m).2 := by
  simp [step, h0]

lemma step_fixed (m : Machine) (b : Bool) (h : m.status = Status.halted b) :
    step m = m := by
  simp [step, h]

lemma exec_br (instr : Nat) (m : Machine) :
    exec 0 instr m =
      if ((instr >>> 9) &&& 7) &&& m.reg R_COND ≠ 0 then
        { m with reg := (regWrite m.reg R_PC
            ((m.reg R_PC + sign_extend (instr &&& 511) 9) % 65536)) }
      else m := rfl

lemma exec_add (instr : Nat) (m : Machine) :
    exec 1 instr m =
      { m with reg := (update_flags ((instr >>> 9) &&& 7)
          (regWrite m.reg ((instr >>> 9) &&& 7)
            ((m.reg ((instr >>> 6) &&& 7) +
              (if (instr >>> 5) &&& 1 = 1 then sign_extend (instr &&& 31) 5
               else m.reg (instr &&& 7))) % 65536))) } := rfl

lemma exec_ld (instr : Nat) (m : Machine) :
    exec 2 instr m =
      { (memRead m (toAddr (m.reg R_PC + sign_extend (instr &&& 511) 9))).2 with
        reg := (update_flags ((instr >>> 9) &&& 7)
          (regWrite ((memRead m (toAddr (m.reg R_PC + sign_extend (instr &&& 511) 9))).2).reg
            ((instr >>> 9) &&& 7)
            (memRead m (toAddr (m.reg R_PC + sign_extend (instr &&& 511) 9))).1)) } := rfl

lemma exec_st (instr : Nat) (m : Machine) :
    exec 3 instr m =
      { m with memory := (memWrite m.memory
          (toAddr (m.reg R_PC + sign_extend (instr &&& 511) 9))
          (m.reg ((instr >>> 9) &&& 7))) } := rfl

lemma exec_jsr (instr : Nat) (m : Machine) :
    exec 4 instr m =
      if (instr >>> 11) &&& 1 = 1 then
        { m with reg := (regWrite (regWrite m.reg 7 (m.reg R_PC)) R_PC
            ((regWrite m.reg 7 (m.reg R_PC) R_PC +
              sign_extend (instr &&& 2047) 11) % 65536)) }
      else
        { m with reg := (regWrite (regWrite m.reg 7 (m.reg R_PC)) R_PC
            (regWrite m.reg 7 (m.reg R_PC) ((instr >>> 6) &&& 7))) } := rfl

lemma exec_and (instr : Nat) (m : Machine) :
    exec 5 instr m =
      { m with reg := (update_flags ((instr >>> 9) &&& 7)
          (regWrite m.reg ((instr >>> 9) &&& 7)
            (m.reg ((instr >>> 6) &&& 7) &&&
              (if (instr >>> 5) &&& 1 = 1 then sign_extend (instr &&& 31) 5
               else m.reg (instr &&& 7))))) } := rfl

lemma exec_ldr (instr : Nat) (m : Machine) :
    exec 6 instr m =
      { (memRead m (toAddr (m.reg ((instr >>> 6) &&& 7) + sign_extend (instr &&& 63) 6))).2 with
        reg := (update_flags ((instr >>> 9) &&& 7)
          (regWrite ((memRead m (toAddr (m.reg ((instr >>> 6) &&& 7) + sign_extend (instr &&& 63) 6))).2).reg
            ((instr >>> 9) &&& 7)
            (memRead m (toAddr (m.reg ((instr >>> 6) &&& 7) + sign_extend (instr &&& 63) 6))).1)) } := rfl

lemma exec_str (instr : Nat) (m : Machine) :
    exec 7 instr m =
      { m with memory := (memWrite m.memory
          (toAddr (m.reg ((instr >>> 6) &&& 7) + sign_extend (instr &&& 63) 6))
          (m.reg ((instr >>> 9) &&& 7))) } := rfl

lemma exec_rti (instr : Nat) (m : Machine) :
    exec 8 instr m = fatalDecode "bad opcode" m := rfl

lemma exec_not (instr : Nat) (m : Machine) :
    exec 9 instr m =
      { m with reg := (update_flags ((instr >>> 9) &&& 7)
          (regWrite m.reg ((instr >>> 9) &&& 7)
            (m.reg ((instr >>> 6) &&& 7) ^^^ 65535))) } := rfl

lemma exec_ldi (instr : Nat) (m : Machine) :
    exec 10 instr m =
      { (memRead (memRead m (toAddr (m.reg R_PC + sign_extend (instr &&& 511) 9))).2
          (toAddr (memRead m (toAddr (m.reg R_PC + sign_extend (instr &&& 511) 9))).1)).2 with
        reg := (update_flags ((instr >>> 9) &&& 7)
          (regWrite ((memRead (memRead m (toAddr (m.reg R_PC + sign_extend (instr &&& 511) 9))).2
              (toAddr (memRead m (toAddr (m.reg R_PC + sign_extend (instr &&& 511) 9))).1)).2).reg
            ((instr >>> 9) &&& 7)
            (memRead (memRead m (toAddr (m.reg R_PC + sign_extend (instr &&& 511) 9))).2
              (toAddr (memRead m (toAddr (m.reg R_PC + sign_extend (instr &&& 511) 9))).1)).1)) } := rfl

lemma exec_sti (instr : Nat) (m : Machine) :
    exec 11 instr m =
      { (memRead m (toAddr (m.reg R_PC + sign_extend (instr &&& 511) 9))).2 with
        memory := (memWrite
          ((memRead m (toAddr (m.reg R_PC + sign_extend (instr &&& 511) 9))).2).memory
          (toAddr (memRead m (toAddr (m.reg R_PC + sign_extend (instr &&& 511) 9))).1)
          (((memRead m (toAddr (m.reg R_PC + sign_extend (instr &&& 511) 9))).2).reg
            ((instr >>> 9) &&& 7))) } := rfl

lemma exec_jmp (instr : Nat) (m : Machine) :
    exec 12 instr m =
      { m with reg := (regWrite m.reg R_PC (m.reg ((instr >>> 6) &&& 7))) } := rfl

lemma exec_res (instr : Nat) (m : Machine) :
    exec 13 instr m = fatalDecode "bad opcode" m := rfl

lemma exec_lea (instr : Nat) (m : Machine) :
    exec 14 instr m =
      { m with reg := (update_flags ((instr >>> 9) &&& 7)
          (regWrite m.reg ((instr >>> 9) &&& 7)
            ((m.reg R_PC + sign_extend (instr &&& 511) 9) % 65536))) } := rfl

lemma exec_trap (instr : Nat) (m : Machine) :
    exec 15 instr m = execTrap instr m := rfl

set_option maxHeartbeats 1000000 in
lemma exec_default (op instr : Nat) (m : Machine) (h : 16 ≤ op) :
    exec op instr m = fatalDecode "bad opcode" m := by
  unfold exec
  rw [if_neg (by omega : ¬ op = 1), if_neg (by omega : ¬ op = 5),
      if_neg (by omega : ¬ op = 9), if_neg (by omega : ¬ op = 0),
      if_neg (by omega : ¬ op = 12), if_neg (by omega : ¬ op = 4),
      if_neg (by omega : ¬ op = 2), if_neg (by omega : ¬ op = 10),
      if_neg (by omega : ¬ op = 6), if_neg (by omega : ¬ op = 14),
      if_neg (by omega : ¬ op = 3), if_neg (by omega : ¬ op = 11),
      if_neg (by omega : ¬ op = 7), if_neg (by omega : ¬ op = 15)]

/-! ## C3: the condition-flag invariant -/

/-- C3: after every flag-affecting instruction (ADD, AND, NOT, LD, LDI,
LDR, LEA), COND holds exactly one of the three condition flags, matching
the result value written to the destination register: negative iff bit 15
of the result is set, zero iff the result is 0, positive otherwise. -/
theorem C3_flag_invariant (m : Machine) (h0 : m.status = Status.running)
    (hop : opcode_of (fetch m).1 = 1 ∨ opcode_of (fetch m).1 = 5 ∨
           opcode_of (fetch m).1 = 9 ∨ opcode_of (fetch m).1 = 2 ∨
           opcode_of (fetch m).1 = 10 ∨ opcode_of (fetch m).1 = 6 ∨
           opcode_of (fetch m).1 = 14) :
    (((step m).reg R_COND = FL_NEG ∨ (step m).reg R_COND = FL_ZRO ∨
      (step m).reg R_COND = FL_POS) ∧
     ((step m).reg R_COND = FL_NEG ↔
       ((step m).reg (((fetch m).1 >>> 9) &&& 7)).testBit 15 = true) ∧
     ((step m).reg R_COND = FL_ZRO ↔ (step m).reg (((fetch m).1 >>> 9) &&& 7) = 0) ∧
     ((step m).reg R_COND = FL_POS ↔
       (((step m).reg (((fetch m).1 >>> 9) &&& 7)).testBit 15 = false ∧
        (step m).reg (((fetch m).1 >>> 9) &&& 7) ≠ 0))) := by
  have hdr := dr_ne_cond (fetch m).1
  rw [step_run_eq m h0]
  rcases hop with h | h | h | h | h | h | h <;> rw [h]
  · rw [exec_add]
    exact update_flags_spec _ _ hdr
  · rw [exec_and]
    exact update_flags_spec _ _ hdr
  · rw [exec_not]
    exact update_flags_spec _ _ hdr
  · rw [exec_ld]
    exact update_flags_spec _ _ hdr
  · rw [exec_ldi]
    exact update_flags_spec _ _ hdr
  · rw [exec_ldr]
    exact update_flags_spec _ _ hdr
  · rw [exec_lea]
    exact update_flags_spec _ _ hdr

/-- Witness for C6 at `v = 31`, `b = 5` (sign bit set). -/
theorem C6_sign_extend_props_witness :
    (31 : Nat) < 65536 ∧ ((5 : Nat) = 5 ∨ (5 : Nat) = 6 ∨ (5 : Nat) = 9 ∨ (5 : Nat) = 11) ∧
    ((Nat.testBit 31 (5 - 1) = false → sign_extend 31 5 = 31) ∧
     (Nat.testBit 31 (5 - 1) = true →
       ∀ i : Nat, (sign_extend 31 5).testBit i
         = (Nat.testBit 31 i || decide (5 ≤ i ∧ i < 16))) ∧
     sign_extend (sign_extend 31 5) 5 = sign_extend 31 5) :=
  ⟨by norm_num, Or.inl rfl, C6_sign_extend_props 31 (by norm_num) 5 (Or.inl rfl)⟩

/-! ## Trap dispatcher lemmas -/

lemma fetch_errMsg (m : Machine) : ((fetch m).2).errMsg = m.errMsg := by
  simp only [fetch]
  exact memRead_errMsg m _

lemma fatalDecode_status (s : String) (m : Machine) :
    (fatalDecode s m).status = Status.halted true := rfl

lemma fatalDecode_errMsg (s : String) (m : Machine) :
    (fatalDecode s m).errMsg = some s := rfl

lemma execTrap_halt (instr : Nat) (m : Machine) (h : instr &&& 255 = 37) :
    execTrap instr m =
      { m with reg := (regWrite m.reg 7 (m.reg R_PC)),
               output := m.output ++ haltNotice,
               status := Status.halted false } := by
  simp only [execTrap]
  rw [if_neg (by omega : ¬ instr &&& 255 = 32),
      if_neg (by omega : ¬ instr &&& 255 = 33),
      if_neg (by omega : ¬ instr &&& 255 = 34),
      if_neg (by omega : ¬ instr &&& 255 = 35),
      if_neg (by omega : ¬ instr &&& 255 = 36),
      if_pos h]

lemma execTrap_bad (instr : Nat) (m : Machine)
    (h20 : instr &&& 255 ≠ 32) (h21 : instr &&& 255 ≠ 33)
    (h22 : instr &&& 255 ≠ 34) (h23 : instr &&& 255 ≠ 35)
    (h24 : instr &&& 255 ≠ 36) (h25 : instr &&& 255 ≠ 37) :
    execTrap instr m =
      fatalDecode "unknown trap vector" { m with reg := (regWrite m.reg 7 (m.reg R_PC)) } := by
  simp only [execTrap]
  rw [if_neg h20, if_neg h21, if_neg h22, if_neg h23, if_neg h24, if_neg h25]

lemma execTrap_status_of_ne (instr : Nat) (m : Machine) (h : instr &&& 255 ≠ 37) :
    (execTrap instr m).status = m.status ∨
    (execTrap instr m).status = Status.halted true := by
  simp only [execTrap]
  split_ifs
  all_goals first
    | exact Or.inl rfl
    | exact Or.inr rfl

/-- Among all instructions, only the HALT trap (vector 0x25) ends a step
with the loop in the normal halted state. -/
lemma step_halted_false_is_halt (m : Machine) (h0 : m.status = Status.running)
    (h : (step m).status = Status.halted false) :
    opcode_of (fetch m).1 = 15 ∧ (fetch m).1 &&& 255 = 37 := by
  have hFs : ((fetch m).2).status = Status.running := by
    rw [fetch_snd_status, h0]
  rw [step_run_eq m h0] at h
  rcases Nat.lt_or_ge (opcode_of (fetch m).1) 16 with hlt | hge
  · generalize ht : opcode_of (fetch m).1 = t at h hlt ⊢
    interval_cases t
    · rw [exec_br] at h
      split_ifs at h <;> simp [hFs] at h
    · rw [exec_add] at h
      simp [hFs] at h
    · rw [exec_ld] at h
      simp only [memRead_status] at h
      simp [memRead_status, hFs] at h
    · rw [exec_st] at h
      simp [hFs] at h
    · rw [exec_jsr] at h
      split_ifs at h <;> simp [hFs] at h
    · rw [exec_and] at h
      simp [hFs] at h
    · rw [exec_ldr] at h
      simp [memRead_status, hFs] at h
    · rw [exec_str] at h
      simp [hFs] at h
    · rw [exec_rti] at h
      simp [fatalDecode] at h
    · rw [exec_not] at h
      simp [hFs] at h
    · rw [exec_ldi] at h
      simp [memRead_status, hFs] at h
    · rw [exec_sti] at h
      simp [memRead_status, hFs] at h
    · rw [exec_jmp] at h
      simp [hFs] at h
    · rw [exec_res] at h
      simp [fatalDecode] at h
    · rw [exec_lea] at h
      simp [hFs] at h
    · refine ⟨rfl, ?_⟩
      rw [exec_trap] at h
      by_cases hv : (fetch m).1 &&& 255 = 37
      · exact hv
      · rcases execTrap_status_of_ne _ _ hv with h2 | h2 <;> rw [h2] at h
        · rw [hFs] at h
          exact absurd h (by simp)
        · exact absurd h (by simp)
  · rw [exec_default _ _ _ hge] at h
    exact absurd h (by simp [fatalDecode])

/-! ## C1: fatal decode conditions halt the loop -/

/-- C1: a step that decodes the reserved opcode (13), the RTI opcode (8)
or a TRAP with an unrecognized vector reaches the halted state with an
error surfaced, and no further instruction has any effect afterwards. -/
theorem C1_fatal_decode_halts (m : Machine) (h0 : m.status = Status.running)
    (hbad : opcode_of (fetch m).1 = 8 ∨ opcode_of (fetch m).1 = 13 ∨
      (opcode_of (fetch m).1 = 15 ∧ (fetch m).1 &&& 255 ≠ 32 ∧
       (fetch m).1 &&& 255 ≠ 33 ∧ (fetch m).1 &&& 255 ≠ 34 ∧
       (fetch m).1 &&& 255 ≠ 35 ∧ (fetch m).1 &&& 255 ≠ 36 ∧
       (fetch m).1 &&& 255 ≠ 37)) :
    (step m).status = Status.halted true ∧ (step m).errMsg.isSome = true ∧
    ∀ n, step^[n] (step m) = step m := by
  have hs : (step m).status = Status.halted true ∧ (step m).errMsg.isSome = true := by
    rw [step_run_eq m h0]
    rcases hbad with h | h | ⟨h, h20, h21, h22, h23, h24, h25⟩
    · rw [h, exec_rti]
      exact ⟨rfl, rfl⟩
    · rw [h, exec_res]
      exact ⟨rfl, rfl⟩
    · rw [h, exec_trap, execTrap_bad _ _ h20 h21 h22 h23 h24 h25]
      exact ⟨rfl, rfl⟩
  exact ⟨hs.1, hs.2, fun n => Function.iterate_fixed (step_fixed (step m) true hs.1) n⟩

/-- Witness for C1 on a machine about to execute the RTI opcode. -/
theorem C1_fatal_decode_halts_witness :
    (constMachine 32768).status = Status.running ∧
    opcode_of (fetch (constMachine 32768)).1 = 8 ∧
    ((step (constMachine 32768)).status = Status.halted true ∧
     (step (constMachine 32768)).errMsg.isSome = true ∧
     ∀ n, step^[n] (step (constMachine 32768)) = step (constMachine 32768)) :=
  ⟨by decide, by decide,
   C1_fatal_decode_halts (constMachine 32768) (by decide) (Or.inl (by decide))⟩

/-! ## C2: the HALT trap and its frame -/

/-- C2: executing TRAP with vector 0x25 is the only normal transition to
the halted state; it halts the loop and, relative to the state right
after fetch (PC already incremented, which is the state in which the TRAP
instruction executes), it changes no memory cell and no register other
than R7, which receives the incremented PC saved by TRAP dispatch. -/
theorem C2_halt_trap_frame (m : Machine) (h0 : m.status = Status.running)
    (h15 : opcode_of (fetch m).1 = 15) (hv : (fetch m).1 &&& 255 = 37) :
    ((step m).status = Status.halted false ∧
     step (step m) = step m ∧
     (step m).memory = ((fetch m).2).memory ∧
     (∀ i, i ≠ 7 → (step m).reg i = ((fetch m).2).reg i) ∧
     (step m).reg 7 = ((fetch m).2).reg R_PC) ∧
    (∀ m2, m2.status = Status.running → (step m2).status = Status.halted false →
      opcode_of (fetch m2).1 = 15 ∧ (fetch m2).1 &&& 255 = 37) := by
  have hs : (step m).status = Status.halted false := by
    rw [step_run_eq m h0, h15, exec_trap, execTrap_halt _ _ hv]
  refine ⟨⟨hs, step_fixed (step m) false hs, ?_, ?_, ?_⟩,
          fun m2 h2 h3 => step_halted_false_is_halt m2 h2 h3⟩
  · rw [step_run_eq m h0, h15, exec_trap, execTrap_halt _ _ hv]
  · intro i hi
    rw [step_run_eq m h0, h15, exec_trap, execTrap_halt _ _ hv]
    exact regWrite_ne ((fetch m).2).reg 7 (((fetch m).2).reg R_PC) i hi
  · rw [step_run_eq m h0, h15, exec_trap, execTrap_halt _ _ hv]
    exact regWrite_same ((fetch m).2).reg 7 (((fetch m).2).reg R_PC)

/-- Witness for C2 on a machine about to execute TRAP HALT (0xF025). -/
theorem C2_halt_trap_frame_witness :
    (constMachine 61477).status = Status.running ∧
    opcode_of (fetch (constMachine 61477)).1 = 15 ∧
    (fetch (constMachine 61477)).1 &&& 255 = 37 ∧
    (((step (constMachine 61477)).status = Status.halted false ∧
      step (step (constMachine 61477)) = step (constMachine 61477) ∧
      (step (constMachine 61477)).memory = ((fetch (constMachine 61477)).2).memory ∧
      (∀ i, i ≠ 7 →
        (step (constMachine 61477)).reg i = ((fetch (constMachine 61477)).2).reg i) ∧
      (step (constMachine 61477)).reg 7 = ((fetch (constMachine 61477)).2).reg R_PC) ∧
     (∀ m2, m2.status = Status.running → (step m2).status = Status.halted false →
       opcode_of (fetch m2).1 = 15 ∧ (fetch m2).1 &&& 255 = 37)) :=
  ⟨by decide, by decide, by decide,
   C2_halt_trap_frame (constMachine 61477) (by decide) (by decide) (by decide)⟩

/-- Witness for C3 on a machine about to execute ADD R0, R0, #1 (0x1021). -/
theorem C3_flag_invariant_witness :
    (constMachine 4129).status = Status.running ∧
    opcode_of (fetch (constMachine 4129)).1 = 1 ∧
    (((step (constMachine 4129)).reg R_COND = FL_NEG ∨
      (step (constMachine 4129)).reg R_COND = FL_ZRO ∨
      (step (constMachine 4129)).reg R_COND = FL_POS) ∧
     ((step (constMachine 4129)).reg R_COND = FL_NEG ↔
       ((step (constMachine 4129)).reg (((fetch (constMachine 4129)).1 >>> 9) &&& 7)).testBit 15 = true) ∧
     ((step (constMachine 4129)).reg R_COND = FL_ZRO ↔
       (step (constMachine 4129)).reg (((fetch (constMachine 4129)).1 >>> 9) &&& 7) = 0) ∧
     ((step (constMachine 4129)).reg R_COND = FL_POS ↔
       (((step (constMachine 4129)).reg (((fetch (constMachine 4129)).1 >>> 9) &&& 7)).testBit 15 = false ∧
        (step (constMachine 4129)).reg (((fetch (constMachine 4129)).1 >>> 9) &&& 7) ≠ 0))) :=
  ⟨by decide, by decide,
   C3_flag_invariant (constMachine 4129) (by decide) (Or.inl (by decide))⟩

/-! ## C4: the PC is incremented at fetch, before execution -/

/-- Address arithmetic absorbs an inner 16-bit reduction. -/
lemma toAddr_mod_add (a b : Nat) : toAddr (a % 65536 + b) = toAddr (a + b) := by
  apply Fin.ext
  simp [toAddr, Nat.mod_add_mod]

/-- C4: every step reads the instruction word at the PC address and
increments PC before the opcode executes, so each PC-relative computation
(BR, JSR, LD, LDI, LEA, ST, STI) is based on the already-incremented PC
(`m.reg R_PC + 1` below, where `m` is the pre-step machine). -/
theorem C4_pc_incremented_before_execute (m : Machine)
    (h0 : m.status = Status.running) :
    ((fetch m).1 = (memRead m (toAddr (m.reg R_PC))).1 ∧
     ((fetch m).2).reg R_PC = (m.reg R_PC + 1) % 65536 ∧
     step m = exec (opcode_of (fetch m).1) (fetch m).1 (fetch m).2) ∧
    (opcode_of (fetch m).1 = 0 →
      ((fetch m).1 >>> 9) &&& 7 &&& ((fetch m).2).reg R_COND ≠ 0 →
      (step m).reg R_PC =
        (m.reg R_PC + 1 + sign_extend ((fetch m).1 &&& 511) 9) % 65536) ∧
    (opcode_of (fetch m).1 = 4 → ((fetch m).1 >>> 11) &&& 1 = 1 →
      (step m).reg R_PC =
        (m.reg R_PC + 1 + sign_extend ((fetch m).1 &&& 2047) 11) % 65536) ∧
    (opcode_of (fetch m).1 = 2 →
      (step m).reg (((fetch m).1 >>> 9) &&& 7) =
        (memRead (fetch m).2
          (toAddr (m.reg R_PC + 1 + sign_extend ((fetch m).1 &&& 511) 9))).1) ∧
    (opcode_of (fetch m).1 = 10 →
      (step m).reg (((fetch m).1 >>> 9) &&& 7) =
        (memRead
          (memRead (fetch m).2
            (toAddr (m.reg R_PC + 1 + sign_extend ((fetch m).1 &&& 511) 9))).2
          (toAddr (memRead (fetch m).2
            (toAddr (m.reg R_PC + 1 + sign_extend ((fetch m).1 &&& 511) 9))).1)).1) ∧
    (opcode_of (fetch m).1 = 14 →
      (step m).reg (((fetch m).1 >>> 9) &&& 7) =
        (m.reg R_PC + 1 + sign_extend ((fetch m).1 &&& 511) 9) % 65536) ∧
    (opcode_of (fetch m).1 = 3 →
      (step m).memory
          (toAddr (m.reg R_PC + 1 + sign_extend ((fetch m).1 &&& 511) 9)) =
        ((fetch m).2).reg (((fetch m).1 >>> 9) &&& 7)) ∧
    (opcode_of (fetch m).1 = 11 →
      (step m).memory
          (toAddr (memRead (fetch m).2
            (toAddr (m.reg R_PC + 1 + sign_extend ((fetch m).1 &&& 511) 9))).1) =
        ((fetch m).2).reg (((fetch m).1 >>> 9) &&& 7)) := by
  have hdr := dr_ne_cond (fetch m).1
  refine ⟨⟨rfl, fetch_pc m, step_run_eq m h0⟩, ?_, ?_, ?_, ?_, ?_, ?_, ?_⟩
  · intro hop htk
    rw [step_run_eq m h0, hop, exec_br, if_pos htk]
    simp only [regWrite_same]
    rw [fetch_pc]
    exact Nat.mod_add_mod _ _ _
  · intro hop hmode
    rw [step_run_eq m h0, hop, exec_jsr, if_pos hmode]
    simp only [regWrite_same]
    rw [regWrite_ne ((fetch m).2).reg 7 (((fetch m).2).reg R_PC) R_PC (by decide),
        fetch_pc]
    exact Nat.mod_add_mod _ _ _
  · intro hop
    rw [step_run_eq m h0, hop, exec_ld]
    simp only [update_flags_at _ _ hdr, regWrite_same]
    rw [fetch_pc, toAddr_mod_add]
  · intro hop
    rw [step_run_eq m h0, hop, exec_ldi]
    simp only [update_flags_at _ _ hdr, regWrite_same]
    rw [fetch_pc, toAddr_mod_add]
  · intro hop
    rw [step_run_eq m h0, hop, exec_lea]
    simp only [update_flags_at _ _ hdr, regWrite_same]
    rw [fetch_pc]
    exact Nat.mod_add_mod _ _ _
  · intro hop
    rw [step_run_eq m h0, hop, exec_st, fetch_pc, toAddr_mod_add]
    exact memWrite_same _ _ _
  · intro hop
    rw [step_run_eq m h0, hop, exec_sti, fetch_pc, toAddr_mod_add]
    simp only [memWrite_same]
    rw [memRead_reg]

/-- Witness for C4 on a machine about to execute LEA R0, #2 (0xE002). -/
theorem C4_pc_incremented_before_execute_witness :
    (constMachine 57346).status = Status.running ∧
    opcode_of (fetch (constMachine 57346)).1 = 14 ∧
    ((fetch (constMachine 57346)).1 =
       (memRead (constMachine 57346) (toAddr ((constMachine 57346).reg R_PC))).1 ∧
     ((fetch (constMachine 57346)).2).reg R_PC =
       ((constMachine 57346).reg R_PC + 1) % 65536 ∧
     step (constMachine 57346) =
       exec (opcode_of (fetch (constMachine 57346)).1) (fetch (constMachine 57346)).1
         (fetch (constMachine 57346)).2) ∧
    (opcode_of (fetch (constMachine 57346)).1 = 14 →
      (step (constMachine 57346)).reg (((fetch (constMachine 57346)).1 >>> 9) &&& 7) =
        ((constMachine 57346).reg R_PC + 1 +
          sign_extend ((fetch (constMachine 57346)).1 &&& 511) 9) % 65536) :=
  ⟨by decide, by decide,
   (C4_pc_incremented_before_execute (constMachine 57346) (by decide)).1,
   (C4_pc_incremented_before_execute (constMachine 57346) (by decide)).2.2.2.2.2.1⟩

/-! ## C10: decoding is total and deterministic -/

/-- C10: the opcode of a fetched word is its upper four bits, always below
16 with no masking needed, and the dispatch is total: the reserved opcode,
RTI, and any out-of-range opcode value all reach the same fatal default
handler, so no instruction word is left undecoded. -/
theorem C10_decode_total (w : Nat) (hw : w < 65536) :
    opcode_of w = w >>> 12 ∧ opcode_of w < 16 ∧
    (∀ instr m, exec 8 instr m = fatalDecode "bad opcode" m) ∧
    (∀ instr m, exec 13 instr m = fatalDecode "bad opcode" m) ∧
    (∀ op instr m, 16 ≤ op → exec op instr m = fatalDecode "bad opcode" m) := by
  refine ⟨rfl, ?_, fun instr m => exec_rti instr m, fun instr m => exec_res instr m,
          fun op instr m h => exec_default op instr m h⟩
  have hdiv : w >>> 12 = w / 4096 := by
    rw [Nat.shiftRight_eq_div_pow]
  rw [opcode_of, hdiv]
  omega

/-- Witness for C10 at the concrete word 0xABCD. -/
theorem C10_decode_total_witness :
    (43981 : Nat) < 65536 ∧
    (opcode_of 43981 = 43981 >>> 12 ∧ opcode_of 43981 < 16 ∧
     (∀ instr m, exec 8 instr m = fatalDecode "bad opcode" m) ∧
     (∀ instr m, exec 13 instr m = fatalDecode "bad opcode" m) ∧
     (∀ op instr m, 16 ≤ op → exec op instr m = fatalDecode "bad opcode" m)) :=
  ⟨by norm_num, C10_decode_total 43981 (by norm_num)⟩

/-! ## C7: 16-bit wraparound -/

lemma wf_regWrite (regs : Nat → Nat) (h : ∀ j, regs j < 65536) (i v : Nat)
    (hv : v < 65536) : ∀ j, regWrite regs i v j < 65536 := by
  intro j
  simp only [regWrite]
  split
  · exact hv
  · exact h j

lemma wf_update_flags (regs : Nat → Nat) (h : ∀ j, regs j < 65536) (r : Nat) :
    ∀ j, update_flags r regs j < 65536 := by
  intro j
  simp only [update_flags]
  refine wf_regWrite regs h R_COND _ ?_ j
  split_ifs <;> decide

lemma wf_memWrite (mem : Address → Nat) (h : ∀ c, mem c < 65536) (a : Address)
    (v : Nat) (hv : v < 65536) : ∀ c, memWrite mem a v c < 65536 := by
  intro c
  simp only [memWrite]
  split
  · exact hv
  · exact h c

lemma xor_bound (a : Nat) (ha : a < 65536) : a ^^^ 65535 < 65536 := by
  have h : (65536 : Nat) = 2 ^ 16 := by norm_num
  rw [h] at ha ⊢
  exact Nat.xor_lt_two_pow ha (by norm_num)

lemma and_bound (a b : Nat) (ha : a < 65536) : a &&& b < 65536 :=
  lt_of_le_of_lt Nat.and_le_left ha

lemma wf_fetch (m : Machine) (h : wf m) : wf (fetch m).2 := by
  refine ⟨?_, ?_⟩
  · rw [fetch_snd_reg]
    exact wf_regWrite m.reg h.1 R_PC _ (Nat.mod_lt _ (by norm_num))
  · rw [fetch_snd_memory]
    exact memRead_mem_lt m _ h.2

lemma wf_execTrap (instr : Nat) (m : Machine) (h : wf m) :
    wf (execTrap instr m) := by
  have hr7 : ∀ j, regWrite m.reg 7 (m.reg R_PC) j < 65536 :=
    wf_regWrite m.reg h.1 7 _ (h.1 R_PC)
  have h256 : m.keys m.keyCursor % 256 < 65536 := by
    have := Nat.mod_lt (m.keys m.keyCursor) (y := 256) (by norm_num)
    omega
  simp only [execTrap]
  split_ifs
  all_goals first
    | exact ⟨hr7, h.2⟩
    | exact ⟨wf_regWrite _ hr7 0 _ h256, h.2⟩

lemma wf_exec (op instr : Nat) (m : Machine) (h : wf m) : wf (exec op instr m) := by
  rcases Nat.lt_or_ge op 16 with hlt | hge
  · interval_cases op
    · rw [exec_br]
      split_ifs
      · exact ⟨wf_regWrite _ h.1 _ _ (Nat.mod_lt _ (by norm_num)), h.2⟩
      · exact h
    · rw [exec_add]
      exact ⟨wf_update_flags _ (wf_regWrite _ h.1 _ _ (Nat.mod_lt _ (by norm_num))) _, h.2⟩
    · rw [exec_ld]
      refine ⟨wf_update_flags _ (wf_regWrite _ ?_ _ _ ?_) _, ?_⟩
      · rw [memRead_reg]
        exact h.1
      · exact memRead_fst_lt m _ h.2
      · exact memRead_mem_lt m _ h.2
    · rw [exec_st]
      exact ⟨h.1, wf_memWrite _ h.2 _ _ (h.1 _)⟩
    · rw [exec_jsr]
      split_ifs
      · exact ⟨wf_regWrite _ (wf_regWrite _ h.1 _ _ (h.1 R_PC)) _ _
          (Nat.mod_lt _ (by norm_num)), h.2⟩
      · exact ⟨wf_regWrite _ (wf_regWrite _ h.1 _ _ (h.1 R_PC)) _ _
          (wf_regWrite _ h.1 _ _ (h.1 R_PC) _), h.2⟩
    · rw [exec_and]
      exact ⟨wf_update_flags _ (wf_regWrite _ h.1 _ _ (and_bound _ _ (h.1 _))) _, h.2⟩
    · rw [exec_ldr]
      refine ⟨wf_update_flags _ (wf_regWrite _ ?_ _ _ ?_) _, ?_⟩
      · rw [memRead_reg]
        exact h.1
      · exact memRead_fst_lt m _ h.2
      · exact memRead_mem_lt m _ h.2
    · rw [exec_str]
      exact ⟨h.1, wf_memWrite _ h.2 _ _ (h.1 _)⟩
    · rw [exec_rti]
      exact h
    · rw [exec_not]
      exact ⟨wf_update_flags _ (wf_regWrite _ h.1 _ _ (xor_bound _ (h.1 _))) _, h.2⟩
    · rw [exec_ldi]
      refine ⟨wf_update_flags _ (wf_regWrite _ ?_ _ _ ?_) _, ?_⟩
      · rw [memRead_reg, memRead_reg]
        exact h.1
      · exact memRead_fst_lt _ _ (memRead_mem_lt m _ h.2)
      · exact memRead_mem_lt _ _ (memRead_mem_lt m _ h.2)
    · rw [exec_sti]
      refine ⟨?_, wf_memWrite _ (memRead_mem_lt m _ h.2) _ _ ?_⟩
      · rw [memRead_reg]
        exact h.1
      · rw [memRead_reg]
        exact h.1 _
    · rw [exec_jmp]
      exact ⟨wf_regWrite _ h.1 _ _ (h.1 _), h.2⟩
    · rw [exec_res]
      exact h
    · rw [exec_lea]
      exact ⟨wf_update_flags _ (wf_regWrite _ h.1 _ _ (Nat.mod_lt _ (by norm_num))) _, h.2⟩
    · rw [exec_trap]
      exact wf_execTrap instr m h
  · rw [exec_default op instr m hge]
    exact h

/-- C7: all 16-bit arithmetic wraps modulo 2^16: a step never leaves a
register or memory cell outside the 16-bit range, the fetch increment of
PC is taken modulo 2^16, ADD results (register and immediate mode) are
taken modulo 2^16, and no overflow is trapped or reported (an ADD step
leaves the status and the error message unchanged). -/
theorem C7_wraparound (m : Machine) (hwf : wf m) :
    wf (step m) ∧
    (((fetch m).2).reg R_PC = (m.reg R_PC + 1) % 65536) ∧
    (m.status = Status.running → opcode_of (fetch m).1 = 1 →
      ((fetch m).1 >>> 5) &&& 1 ≠ 1 →
      ((step m).reg (((fetch m).1 >>> 9) &&& 7) =
        (((fetch m).2).reg (((fetch m).1 >>> 6) &&& 7) +
         ((fetch m).2).reg ((fetch m).1 &&& 7)) % 65536 ∧
       (step m).status = m.status ∧ (step m).errMsg = m.errMsg)) ∧
    (m.status = Status.running → opcode_of (fetch m).1 = 1 →
      ((fetch m).1 >>> 5) &&& 1 = 1 →
      (step m).reg (((fetch m).1 >>> 9) &&& 7) =
        (((fetch m).2).reg (((fetch m).1 >>> 6) &&& 7) +
         sign_extend ((fetch m).1 &&& 31) 5) % 65536) := by
  have hdr := dr_ne_cond (fetch m).1
  refine ⟨?_, fetch_pc m, fun h0 hop hflag => ?_, fun h0 hop hflag => ?_⟩
  · rcases hst : m.status with _ | b
    · rw [step_run_eq m hst]
      exact wf_exec _ _ _ (wf_fetch m hwf)
    · rw [step_fixed m b hst]
      exact hwf
  · refine ⟨?_, ?_, ?_⟩
    · rw [step_run_eq m h0, hop, exec_add, if_neg hflag]
      simp only [update_flags_at _ _ hdr, regWrite_same]
    · rw [step_run_eq m h0, hop, exec_add]
      exact fetch_snd_status m
    · rw [step_run_eq m h0, hop, exec_add]
      exact fetch_errMsg m
  · rw [step_run_eq m h0, hop, exec_add, if_pos hflag]
    simp only [update_flags_at _ _ hdr, regWrite_same]

/-- Witness for C7 on a machine about to execute ADD R0, R0, #1. -/
theorem C7_wraparound_witness :
    wf (constMachine 4129) ∧
    (wf (step (constMachine 4129)) ∧
     ((fetch (constMachine 4129)).2).reg R_PC =
       ((constMachine 4129).reg R_PC + 1) % 65536 ∧
     ((constMachine 4129).status = Status.running →
       opcode_of (fetch (constMachine 4129)).1 = 1 →
       ((fetch (constMachine 4129)).1 >>> 5) &&& 1 ≠ 1 →
       ((step (constMachine 4129)).reg (((fetch (constMachine 4129)).1 >>> 9) &&& 7) =
         (((fetch (constMachine 4129)).2).reg (((fetch (constMachine 4129)).1 >>> 6) &&& 7) +
          ((fetch (constMachine 4129)).2).reg ((fetch (constMachine 4129)).1 &&& 7)) % 65536 ∧
        (step (constMachine 4129)).status = (constMachine 4129).status ∧
        (step (constMachine 4129)).errMsg = (constMachine 4129).errMsg)) ∧
     ((constMachine 4129).status = Status.running →
       opcode_of (fetch (constMachine 4129)).1 = 1 →
       ((fetch (constMachine 4129)).1 >>> 5) &&& 1 = 1 →
       (step (constMachine 4129)).reg (((fetch (constMachine 4129)).1 >>> 9) &&& 7) =
         (((fetch (constMachine 4129)).2).reg (((fetch (constMachine 4129)).1 >>> 6) &&& 7) +
          sign_extend ((fetch (constMachine 4129)).1 &&& 31) 5) % 65536)) :=
  have hwf : wf (constMachine 4129) := by
    refine ⟨fun i => ?_, fun a => ?_⟩
    · simp only [constMachine, startMachine, regWrite, initialReg]
      split_ifs <;> decide
    · simp only [constMachine, startMachine]
      norm_num
  ⟨hwf, C7_wraparound (constMachine 4129) hwf⟩

/-! ## C9: command-line and exit-status behavior -/

/-- If some path in the list fails to load, the whole load aborts with the
first failing path. -/
lemma loadImages_error_of_mem (loader : String → Option Image) :
    ∀ (args : List String) (mem : Address → Nat) (p : String),
      p ∈ args → loader p = none →
      ∃ q, q ∈ args ∧ loader q = none ∧
        loadImages loader mem args = Except.error q := by
  intro args
  induction args with
  | nil =>
    intro mem p hp hnone
    exact absurd hp (List.not_mem_nil p)
  | cons a rest ih =>
    intro mem p hp hnone
    by_cases ha : loader a = none
    · exact ⟨a, List.mem_cons_self a rest, ha, by simp [loadImages, ha]⟩
    · obtain ⟨cells, hc⟩ := Option.ne_none_iff_exists.mp ha
      have hp2 : p ∈ rest := by
        rcases List.mem_cons.mp hp with h | h
        · rw [h] at hnone
          exact absurd hnone ha
        · exact h
      obtain ⟨q, hq1, hq2, hq3⟩ := ih (applyImage mem cells) p hp2 hnone
      refine ⟨q, List.mem_cons_of_mem a hq1, hq2, ?_⟩
      have hu : loadImages loader mem (a :: rest) =
          loadImages loader (applyImage mem cells) rest := by
        simp only [loadImages]
        rw [← hc]
      rw [hu]
      exact hq3

/-- C9: with no image-path arguments the process prints the usage message
and exits with status 2 without entering the execution loop; if some path
fails to load, the process exits with status 1 before the loop starts,
naming the (first) failing path; a run whose loop ends in a normal HALT
exits with status 0. -/
theorem C9_cli_exit_behavior (loader : String → Option Image)
    (keys : Nat → Nat) (polls : Nat → Bool) (fuel : Nat)
    (args : List String) (p : String) (hp : p ∈ args)
    (hnone : loader p = none) :
    (lc3Main loader keys polls fuel [] = MainResult.usageExit usageMessage ∧
     exitCode (lc3Main loader keys polls fuel []) = 2 ∧
     enteredLoop (lc3Main loader keys polls fuel []) = false) ∧
    (∃ q, q ∈ args ∧ loader q = none ∧
      lc3Main loader keys polls fuel args =
        MainResult.loadExit ("failed to load image: " ++ q) ∧
      exitCode (lc3Main loader keys polls fuel args) = 1 ∧
      enteredLoop (lc3Main loader keys polls fuel args) = false) ∧
    (∀ (args2 : List String) (mem : Address → Nat),
      args2 ≠ [] → loadImages loader memZero args2 = Except.ok mem →
      (run fuel (startMachine mem keys polls)).status = Status.halted false →
      exitCode (lc3Main loader keys polls fuel args2) = 0 ∧
      lc3Main loader keys polls fuel args2 =
        MainResult.ran (run fuel (startMachine mem keys polls))) := by
  refine ⟨⟨rfl, rfl, rfl⟩, ?_, ?_⟩
  · obtain ⟨q, hq1, hq2, hq3⟩ := loadImages_error_of_mem loader args memZero p hp hnone
    have hne : args ≠ [] := List.ne_nil_of_mem hp
    have hmain : lc3Main loader keys polls fuel args =
        MainResult.loadExit ("failed to load image: " ++ q) := by
      simp only [lc3Main, loadFailMessage]
      rw [if_neg (by simpa using hne), hq3]
    refine ⟨q, hq1, hq2, hmain, ?_, ?_⟩
    · rw [hmain]
      rfl
    · rw [hmain]
      rfl
  · intro args2 mem hne hok hhalt
    have hmain : lc3Main loader keys polls fuel args2 =
        MainResult.ran (run fuel (startMachine mem keys polls)) := by
      simp only [lc3Main]
      rw [if_neg (by simpa using hne), hok]
    refine ⟨?_, hmain⟩
    rw [hmain]
    simp [exitCode, hhalt]

/-- Witness for C9 with one argument whose load fails. -/
theorem C9_cli_exit_behavior_witness :
    ("img" ∈ ["img"]) ∧
    (fun _ : String => (none : Option Image)) "img" = none ∧
    ((lc3Main (fun _ => none) (fun _ => 0) (fun _ => false) 5 [] =
        MainResult.usageExit usageMessage ∧
      exitCode (lc3Main (fun _ => none) (fun _ => 0) (fun _ => false) 5 []) = 2 ∧
      enteredLoop (lc3Main (fun _ => none) (fun _ => 0) (fun _ => false) 5 []) = false) ∧
     (∃ q, q ∈ ["img"] ∧ (fun _ : String => (none : Option Image)) q = none ∧
       lc3Main (fun _ => none) (fun _ => 0) (fun _ => false) 5 ["img"] =
         MainResult.loadExit ("failed to load image: " ++ q) ∧
       exitCode (lc3Main (fun _ => none) (fun _ => 0) (fun _ => false) 5 ["img"]) = 1 ∧
       enteredLoop (lc3Main (fun _ => none) (fun _ => 0) (fun _ => false) 5 ["img"]) = false) ∧
     (∀ (args2 : List String) (mem : Address → Nat),
       args2 ≠ [] →
       loadImages (fun _ => none) memZero args2 = Except.ok mem →
       (run 5 (startMachine mem (fun _ => 0) (fun _ => false))).status = Status.halted false →
       exitCode (lc3Main (fun _ => none) (fun _ => 0) (fun _ => false) 5 args2) = 0 ∧
       lc3Main (fun _ => none) (fun _ => 0) (fun _ => false) 5 args2 =
         MainResult.ran (run 5 (startMachine mem (fun _ => 0) (fun _ => false))))) :=
  ⟨by simp, rfl,
   C9_cli_exit_behavior (fun _ => none) (fun _ => 0) (fun _ => false) 5 ["img"] "img"
     (by simp) rfl⟩

end LC3
